import Mathlib

/-!
Shallow embedding of the checkpoint save/load component of the
udacity-deep-learning notebook (`Part 8 - Saving and Loading Models`).

The notebook's own code is embedded directly:
  * the `checkpoint` dictionary built from `input_size`, `output_size`,
    the introspected hidden sizes, and the module's `state_dict`;
  * the `load_checkpoint` function, which reconstructs a fresh
    `fc_model.Network` from the stored descriptor fields and then assigns
    the stored parameters into it, returning only the model.

`fc_model.Network` itself and the strict parameter-assignment routine are
not part of the source tree (only their call sites and printed structure
are), so they are modelled from the specification, as noted on the
individual definitions.  Parameter values are carried as exact integers;
equality of tensors is literal equality of their entries, which is the
embedding of "bit-for-bit" numeric identity.
-/

namespace FcModel

/-- A weight matrix is stored row-major: one row per output feature. -/
abbrev Matrix := List (List Int)

/-- A stored parameter array: either a weight matrix or a bias vector. -/
inductive Tensor where
  | matrix (m : Matrix)
  | vector (v : List Int)
deriving DecidableEq

/-- The dimensions of a stored array, as reported for shape checking
(`torch.Size([r, c])` for matrices, `torch.Size([n])` for vectors). -/
def Tensor.shape : Tensor → List Nat
  | Tensor.matrix m => [m.length, (m.headD []).length]
  | Tensor.vector v => [v.length]

/-- One fully-connected layer: feature counts plus its two parameters.
Modelled from the spec: the trainable-module abstraction's layers, whose
weight has shape `[out_features, in_features]` and bias `[out_features]`;
the printed module structure in the notebook confirms the feature counts. -/
structure Linear where
  in_features : Nat
  out_features : Nat
  weight : Matrix
  bias : List Int
deriving DecidableEq

/-- The layer's stored arrays actually have the shape implied by its
`in_features`/`out_features` fields. -/
def Linear.hasShape (l : Linear) : Bool :=
  (l.weight.length == l.out_features)
    && l.weight.all (fun r => r.length == l.in_features)
    && (l.bias.length == l.out_features)

/-- A freshly initialised vector of the given length. -/
def zeros (n : Nat) : List Int := List.replicate n 0

/-- A freshly initialised `r × c` weight matrix. -/
def zeroMatrix (r c : Nat) : Matrix := List.replicate r (zeros c)

/-- A freshly constructed linear layer of the given dimensions. -/
def mkLinear (inF outF : Nat) : Linear :=
  { in_features := inF, out_features := outF,
    weight := zeroMatrix outF inF, bias := zeros outF }

/-- The layer identifiers used as state-dict keys.  The notebook's printed
key set is `hidden_layers.<i>.weight` / `hidden_layers.<i>.bias` for each
hidden layer index `i`, plus `output.weight` / `output.bias`. -/
inductive ParamKey where
  | hiddenWeight (i : Nat)
  | hiddenBias (i : Nat)
  | outputWeight
  | outputBias
deriving DecidableEq

/-- The literal string under which the parameter is keyed in the saved
state dict, exactly as printed by the notebook. -/
def ParamKey.name : ParamKey → String
  | ParamKey.hiddenWeight i => "hidden_layers." ++ toString i ++ ".weight"
  | ParamKey.hiddenBias i => "hidden_layers." ++ toString i ++ ".bias"
  | ParamKey.outputWeight => "output.weight"
  | ParamKey.outputBias => "output.bias"

/-- An ordered mapping from parameter identifiers to arrays (the embedding
of the framework's ordered state dict). -/
abbrev StateDict := List (ParamKey × Tensor)

/-- The feed-forward module of `fc_model.Network`.
Modelled from the spec: a ModuleList of hidden linear layers followed by
one output linear layer, as printed by the notebook. -/
structure Network where
  hidden_layers : List Linear
  output : Linear
deriving DecidableEq

/-- The state-dict entries contributed by the hidden layers starting at
index `k`, in application order. -/
def hiddenEntries : Nat → List Linear → StateDict
  | _, [] => []
  | k, l :: rest =>
    (ParamKey.hiddenWeight k, Tensor.matrix l.weight)
      :: (ParamKey.hiddenBias k, Tensor.vector l.bias)
      :: hiddenEntries (k + 1) rest

/-- The module's ordered state dict, with the key order the notebook
prints: hidden layers in application order, then the output layer. -/
def Network.state_dict (n : Network) : StateDict :=
  hiddenEntries 0 n.hidden_layers
    ++ [(ParamKey.outputWeight, Tensor.matrix n.output.weight),
        (ParamKey.outputBias, Tensor.vector n.output.bias)]

/-- Consecutive `(in_features, out_features)` pairs for the hidden layers
built from `input_size` and the hidden size list. -/
def layerPairs (input : Nat) (hidden : List Nat) : List (Nat × Nat) :=
  List.zip (input :: hidden) hidden

/-- Modelled from the spec: `fc_model.Network(input_size, output_size,
hidden_layers)` builds hidden linear layers chained
`input_size → h₀ → h₁ → …` followed by an output layer
`last hidden → output_size`, each with freshly initialised parameters of
the implied shapes (the notebook prints exactly this structure). -/
def Network.construct (input_size output_size : Nat) (hidden : List Nat) : Network :=
  { hidden_layers := (layerPairs input_size hidden).map (fun p => mkLinear p.1 p.2),
    output := mkLinear (hidden.getLastD input_size) output_size }

/-- First-match lookup in a state dict. -/
def lookupTensor : StateDict → ParamKey → Option Tensor
  | [], _ => none
  | (k, t) :: rest, key => if k = key then some t else lookupTensor rest key

/-- Removal of every entry stored under a given key (used to model a
checkpoint from which a parameter entry has been deleted). -/
def removeKey (sd : StateDict) (key : ParamKey) : StateDict :=
  sd.filter (fun p => decide (p.1 ≠ key))

/-- The chain of hidden layers is consistent: each layer consumes exactly
the features the previous one produces, starting from `input`. -/
def chainOK : Nat → List Linear → Bool
  | _, [] => true
  | d, l :: rest => (l.in_features == d) && chainOK l.out_features rest

/-- The module's actual layer dimensions agree with the descriptor
`(input, output)` together with its own hidden feature counts, and every
stored array has the shape its layer implies.  This is the "descriptor
matching the module's actual layer shapes" premise of the spec. -/
def Network.conforms (n : Network) (input output : Nat) : Bool :=
  chainOK input n.hidden_layers
    && (n.output.in_features == (n.hidden_layers.map Linear.out_features).getLastD input)
    && (n.output.out_features == output)
    && n.hidden_layers.all Linear.hasShape
    && n.output.hasShape

/-- The errors the loading path can surface. -/
inductive LoadError where
  | ShapeMismatch (keys : List ParamKey)
  | MissingField (key : ParamKey)
deriving DecidableEq

/-- The expected entries (drawn from the target module's own state dict)
whose key is absent from the source state dict, in expected order. -/
def missingOf (expected sd : StateDict) : List ParamKey :=
  expected.filterMap (fun p => if (lookupTensor sd p.1).isNone then some p.1 else none)

/-- The expected entries whose stored array is present but has dimensions
different from the shape the target module implies, in expected order. -/
def mismatchOf (expected sd : StateDict) : List ParamKey :=
  expected.filterMap (fun p =>
    match lookupTensor sd p.1 with
    | none => none
    | some t => if t.shape = p.2.shape then none else some p.1)

/-- Assignment of a layer's two parameters from the state dict; the
feature-count fields of the layer are untouched. -/
def Linear.assignFrom (l : Linear) (wKey bKey : ParamKey) (sd : StateDict) : Linear :=
  { l with
    weight :=
      match lookupTensor sd wKey with
      | some (Tensor.matrix m) => m
      | _ => l.weight,
    bias :=
      match lookupTensor sd bKey with
      | some (Tensor.vector v) => v
      | _ => l.bias }

/-- Assignment of the hidden layers' parameters from the state dict,
numbering the layers from `k`. -/
def assignHidden : Nat → List Linear → StateDict → List Linear
  | _, [], _ => []
  | k, l :: rest, sd =>
    l.assignFrom (ParamKey.hiddenWeight k) (ParamKey.hiddenBias k) sd
      :: assignHidden (k + 1) rest sd

/-- Modelled from the spec: the strict parameter assignment used by
`model.load_state_dict` (the implementation lives in the external
framework; the notebook records only its observable behaviour).  It fails
with `MissingField` when a required entry is absent, fails with
`ShapeMismatch` listing every expected parameter whose stored dimensions
disagree with the module's, and otherwise assigns every entry; on failure
no partially-populated module is produced. -/
def Network.load_state_dict (n : Network) (sd : StateDict) : Except LoadError Network :=
  match missingOf n.state_dict sd with
  | k :: _ => Except.error (LoadError.MissingField k)
  | [] =>
    match mismatchOf n.state_dict sd with
    | k :: ks => Except.error (LoadError.ShapeMismatch (k :: ks))
    | [] =>
      Except.ok
        { hidden_layers := assignHidden 0 n.hidden_layers sd,
          output := n.output.assignFrom ParamKey.outputWeight ParamKey.outputBias sd }

/-- The serialized checkpoint record, with exactly the four entries the
notebook stores. -/
structure Checkpoint where
  input_size : Nat
  output_size : Nat
  hidden_layers : List Nat
  state_dict : StateDict
deriving DecidableEq

/-- The notebook's checkpoint construction: the two descriptor integers as
passed by the caller, the hidden sizes read back from each hidden layer's
`out_features` in order, and a snapshot of the module's state dict. -/
def checkpoint (input_size output_size : Nat) (model : Network) : Checkpoint :=
  { input_size := input_size,
    output_size := output_size,
    hidden_layers := model.hidden_layers.map Linear.out_features,
    state_dict := model.state_dict }

/-- The notebook's `load_checkpoint`: rebuild a fresh network from the
three stored descriptor fields, then assign the stored state dict into
it. -/
def load_checkpoint (cp : Checkpoint) : Except LoadError Network :=
  (Network.construct cp.input_size cp.output_size cp.hidden_layers).load_state_dict
    cp.state_dict

/-- The descriptor record named by the specification. -/
structure ArchitectureDescriptor where
  input_size : Nat
  output_size : Nat
  hidden_sizes : List Nat
deriving DecidableEq

/-- A value returned to the caller of the loading routine: either a bare
module (what the source's `return model` produces) or a module paired with
the descriptor (what the specification's `load(source) → (module,
architecture)` describes). -/
inductive LoadValue where
  | module (m : Network)
  | pair (m : Network) (d : ArchitectureDescriptor)
deriving DecidableEq

/-- The value `load_checkpoint` hands back to its caller: the bare
reconstructed model (`return model` in the source). -/
def load_checkpoint_value (cp : Checkpoint) : Except LoadError LoadValue :=
  (load_checkpoint cp).map LoadValue.module

/-- A field value of the serialized checkpoint container. -/
inductive CVal where
  | nat (n : Nat)
  | natList (l : List Nat)
  | params (entries : List (String × Tensor))
deriving DecidableEq

/-- The checkpoint as a structured container of named fields, mirroring
the dictionary literal the notebook passes to `torch.save`. -/
def Checkpoint.serialize (cp : Checkpoint) : List (String × CVal) :=
  [("input_size", CVal.nat cp.input_size),
   ("output_size", CVal.nat cp.output_size),
   ("hidden_layers", CVal.natList cp.hidden_layers),
   ("state_dict", CVal.params (cp.state_dict.map (fun p => (p.1.name, p.2))))]

/-- The names under which the checkpoint's parameter entries are keyed, in
stored order. -/
def serializedParamNames (cp : Checkpoint) : List String :=
  cp.state_dict.map (fun p => p.1.name)

/-- A checkpoint with every parameter entry of the given key removed. -/
def Checkpoint.dropParam (cp : Checkpoint) (key : ParamKey) : Checkpoint :=
  { cp with state_dict := removeKey cp.state_dict key }

/-- In-place update of a weight matrix at hidden index `i`. -/
def setHiddenWeight : List Linear → Nat → Matrix → List Linear
  | [], _, _ => []
  | l :: rest, 0, m => { l with weight := m } :: rest
  | l :: rest, i + 1, m => l :: setHiddenWeight rest i m

/-- In-place update of a bias vector at hidden index `i`. -/
def setHiddenBias : List Linear → Nat → List Int → List Linear
  | [], _, _ => []
  | l :: rest, 0, v => { l with bias := v } :: rest
  | l :: rest, i + 1, v => l :: setHiddenBias rest i v

/-- Modelled from the spec: the trainable-module abstraction's "in-place
assignment of a named parameter's value", used to express a training step
mutating the module after a save. -/
def Network.setParam (n : Network) (k : ParamKey) (t : Tensor) : Network :=
  match k, t with
  | ParamKey.hiddenWeight i, Tensor.matrix m =>
    { n with hidden_layers := setHiddenWeight n.hidden_layers i m }
  | ParamKey.hiddenBias i, Tensor.vector v =>
    { n with hidden_layers := setHiddenBias n.hidden_layers i v }
  | ParamKey.outputWeight, Tensor.matrix m =>
    { n with output := { n.output with weight := m } }
  | ParamKey.outputBias, Tensor.vector v =>
    { n with output := { n.output with bias := v } }
  | _, _ => n

/-- The program trace "save, then mutate the live module": the checkpoint
is produced first, then the module is updated; the pair collects the
already-produced checkpoint and the mutated module. -/
def saveThenMutate (i o : Nat) (M : Network) (k : ParamKey) (t : Tensor) :
    Checkpoint × Network :=
  let c := checkpoint i o M
  let M2 := M.setParam k t
  (c, M2)

/-- The layer identifiers implied by a descriptor with `n` hidden layers:
one weight/bias pair per hidden index in order, then the output pair. -/
def hiddenKeys : Nat → Nat → List ParamKey
  | _, 0 => []
  | k, n + 1 =>
    ParamKey.hiddenWeight k :: ParamKey.hiddenBias k :: hiddenKeys (k + 1) n

/-- All layer identifiers implied by a descriptor with `n` hidden
layers. -/
def expectedKeys (n : Nat) : List ParamKey :=
  hiddenKeys 0 n ++ [ParamKey.outputWeight, ParamKey.outputBias]

/-- The rendered parameter names implied by `n` hidden layers. -/
def paramNames (n : Nat) : List String :=
  (expectedKeys n).map ParamKey.name

/-- The skeleton of a layer: same feature counts, freshly initialised
parameters. -/
def shellLinear (l : Linear) : Linear := mkLinear l.in_features l.out_features

/-- The skeleton of a module: what reconstruction from its own introspected
descriptor produces before any parameters are assigned. -/
def Network.shell (n : Network) : Network :=
  { hidden_layers := n.hidden_layers.map shellLinear,
    output := shellLinear n.output }

/-! Helper lemmas about shapes, lookups and the constructed network. -/

theorem shape_of_hasShape (l : Linear) (h : l.hasShape = true) :
    (Tensor.matrix l.weight).shape
      = [l.out_features, if l.out_features = 0 then 0 else l.in_features]
    ∧ (Tensor.vector l.bias).shape = [l.out_features] := by
  simp only [Linear.hasShape, Bool.and_eq_true, beq_iff_eq, List.all_eq_true] at h
  obtain ⟨⟨hw, hrow⟩, hb⟩ := h
  refine ⟨?_, by simp [Tensor.shape, hb]⟩
  cases hweq : l.weight with
  | nil =>
    rw [hweq] at hw
    simp [Tensor.shape, ← hw]
  | cons r t =>
    rw [hweq] at hw
    have hr : r.length = l.in_features := by
      simpa using hrow r (by rw [hweq]; exact List.mem_cons_self r t)
    have hne : l.out_features ≠ 0 := by rw [← hw]; simp
    simp [Tensor.shape, ← hw, hr, hne]

theorem mkLinear_hasShape (a b : Nat) : (mkLinear a b).hasShape = true := by
  simp [mkLinear, Linear.hasShape, zeroMatrix, zeros, List.all_eq_true,
    List.mem_replicate]

theorem shape_mkLinear (a b : Nat) :
    (Tensor.matrix (mkLinear a b).weight).shape = [b, if b = 0 then 0 else a]
    ∧ (Tensor.vector (mkLinear a b).bias).shape = [b] := by
  simpa [mkLinear] using shape_of_hasShape (mkLinear a b) (mkLinear_hasShape a b)

theorem lookupTensor_cons_self (k : ParamKey) (t : Tensor) (sd : StateDict) :
    lookupTensor ((k, t) :: sd) k = some t := by
  simp [lookupTensor]

theorem lookupTensor_cons_ne (k k' : ParamKey) (t : Tensor) (sd : StateDict)
    (h : k ≠ k') : lookupTensor ((k, t) :: sd) k' = lookupTensor sd k' := by
  simp [lookupTensor, h]

theorem lookup_hiddenEntries_w (hs : List Linear) :
    ∀ (k j : Nat) (hj : j < hs.length) (rest : StateDict),
      lookupTensor (hiddenEntries k hs ++ rest) (ParamKey.hiddenWeight (k + j))
        = some (Tensor.matrix ((hs.get ⟨j, hj⟩).weight)) := by
  induction hs with
  | nil => intro k j hj rest; cases hj
  | cons l t ih =>
    intro k j hj rest
    cases j with
    | zero =>
      simp [hiddenEntries, lookupTensor]
    | succ j =>
      have h1 : ParamKey.hiddenWeight k ≠ ParamKey.hiddenWeight (k + (j + 1)) := by
        simp
      have h2 : ParamKey.hiddenBias k ≠ ParamKey.hiddenWeight (k + (j + 1)) := by
        simp
      rw [hiddenEntries, List.cons_append, List.cons_append,
        lookupTensor_cons_ne _ _ _ _ h1, lookupTensor_cons_ne _ _ _ _ h2]
      have hj' : j < t.length := by simpa using Nat.lt_of_succ_lt_succ hj
      have := ih (k + 1) j hj' rest
      rw [show k + 1 + j = k + (j + 1) by omega] at this
      simpa using this

theorem lookup_hiddenEntries_b (hs : List Linear) :
    ∀ (k j : Nat) (hj : j < hs.length) (rest : StateDict),
      lookupTensor (hiddenEntries k hs ++ rest) (ParamKey.hiddenBias (k + j))
        = some (Tensor.vector ((hs.get ⟨j, hj⟩).bias)) := by
  induction hs with
  | nil => intro k j hj rest; cases hj
  | cons l t ih =>
    intro k j hj rest
    cases j with
    | zero =>
      have h1 : ParamKey.hiddenWeight k ≠ ParamKey.hiddenBias (k + 0) := by simp
      rw [hiddenEntries, List.cons_append, lookupTensor_cons_ne _ _ _ _ h1,
        List.cons_append]
      simp [lookupTensor]
    | succ j =>
      have h1 : ParamKey.hiddenWeight k ≠ ParamKey.hiddenBias (k + (j + 1)) := by
        simp
      have h2 : ParamKey.hiddenBias k ≠ ParamKey.hiddenBias (k + (j + 1)) := by
        simp
      rw [hiddenEntries, List.cons_append, List.cons_append,
        lookupTensor_cons_ne _ _ _ _ h1, lookupTensor_cons_ne _ _ _ _ h2]
      have hj' : j < t.length := by simpa using Nat.lt_of_succ_lt_succ hj
      have := ih (k + 1) j hj' rest
      rw [show k + 1 + j = k + (j + 1) by omega] at this
      simpa using this

theorem lookup_hiddenEntries_skip (q : ParamKey)
    (hq : ∀ i, q ≠ ParamKey.hiddenWeight i ∧ q ≠ ParamKey.hiddenBias i)
    (hs : List Linear) :
    ∀ (k : Nat) (rest : StateDict),
      lookupTensor (hiddenEntries k hs ++ rest) q = lookupTensor rest q := by
  induction hs with
  | nil => intro k rest; rfl
  | cons l t ih =>
    intro k rest
    rw [hiddenEntries, List.cons_append, List.cons_append,
      lookupTensor_cons_ne _ _ _ _ (Ne.symm (hq k).1),
      lookupTensor_cons_ne _ _ _ _ (Ne.symm (hq k).2), ih]

theorem lookup_state_dict_hw (n : Network) (j : Nat)
    (hj : j < n.hidden_layers.length) :
    lookupTensor n.state_dict (ParamKey.hiddenWeight j)
      = some (Tensor.matrix ((n.hidden_layers.get ⟨j, hj⟩).weight)) := by
  have := lookup_hiddenEntries_w n.hidden_layers 0 j hj
    [(ParamKey.outputWeight, Tensor.matrix n.output.weight),
     (ParamKey.outputBias, Tensor.vector n.output.bias)]
  rw [Nat.zero_add] at this
  exact this

theorem lookup_state_dict_hb (n : Network) (j : Nat)
    (hj : j < n.hidden_layers.length) :
    lookupTensor n.state_dict (ParamKey.hiddenBias j)
      = some (Tensor.vector ((n.hidden_layers.get ⟨j, hj⟩).bias)) := by
  have := lookup_hiddenEntries_b n.hidden_layers 0 j hj
    [(ParamKey.outputWeight, Tensor.matrix n.output.weight),
     (ParamKey.outputBias, Tensor.vector n.output.bias)]
  rw [Nat.zero_add] at this
  exact this

theorem lookup_state_dict_ow (n : Network) :
    lookupTensor n.state_dict ParamKey.outputWeight
      = some (Tensor.matrix n.output.weight) := by
  rw [Network.state_dict,
    lookup_hiddenEntries_skip _ (fun i => ⟨by simp, by simp⟩) _ 0]
  simp [lookupTensor]

theorem lookup_state_dict_ob (n : Network) :
    lookupTensor n.state_dict ParamKey.outputBias
      = some (Tensor.vector n.output.bias) := by
  rw [Network.state_dict,
    lookup_hiddenEntries_skip _ (fun i => ⟨by simp, by simp⟩) _ 0]
  simp [lookupTensor]

theorem mem_hiddenEntries (hs : List Linear) :
    ∀ (k : Nat) (p : ParamKey × Tensor), p ∈ hiddenEntries k hs →
      ∃ (j : Nat) (hj : j < hs.length),
        p = (ParamKey.hiddenWeight (k + j),
              Tensor.matrix ((hs.get ⟨j, hj⟩).weight))
        ∨ p = (ParamKey.hiddenBias (k + j),
              Tensor.vector ((hs.get ⟨j, hj⟩).bias)) := by
  induction hs with
  | nil => intro k p hp; cases hp
  | cons l t ih =>
    intro k p hp
    rw [hiddenEntries] at hp
    rcases List.mem_cons.mp hp with hp | hp
    · exact ⟨0, by simp, Or.inl (by simpa using hp)⟩
    rcases List.mem_cons.mp hp with hp | hp
    · exact ⟨0, by simp, Or.inr (by simpa using hp)⟩
    obtain ⟨j, hj, hcase⟩ := ih (k + 1) p hp
    refine ⟨j + 1, by simpa using Nat.succ_lt_succ hj, ?_⟩
    rw [show k + (j + 1) = k + 1 + j by omega]
    simpa using hcase

theorem keys_hiddenEntries (hs : List Linear) :
    ∀ k, (hiddenEntries k hs).map Prod.fst = hiddenKeys k hs.length := by
  induction hs with
  | nil => intro k; rfl
  | cons l t ih => intro k; simp [hiddenEntries, hiddenKeys, ih]

theorem keys_state_dict (n : Network) :
    n.state_dict.map Prod.fst = expectedKeys n.hidden_layers.length := by
  simp [Network.state_dict, expectedKeys, keys_hiddenEntries]

theorem names_state_dict (n : Network) :
    n.state_dict.map (fun p => p.1.name) = paramNames n.hidden_layers.length := by
  rw [paramNames, ← keys_state_dict, List.map_map]
  rfl

theorem layerPairs_nil (i : Nat) : layerPairs i [] = [] := rfl

theorem layerPairs_cons (i h : Nat) (t : List Nat) :
    layerPairs i (h :: t) = (i, h) :: layerPairs h t := rfl

theorem construct_hidden_map (i : Nat) (hs : List Nat) :
    ((layerPairs i hs).map (fun p => mkLinear p.1 p.2)).map Linear.out_features
      = hs := by
  induction hs generalizing i with
  | nil => rfl
  | cons h t ih =>
    rw [layerPairs_cons, List.map_cons, List.map_cons]
    rw [ih h]
    rfl

theorem construct_hidden_sizes (i o : Nat) (hs : List Nat) :
    (Network.construct i o hs).hidden_layers.map Linear.out_features = hs :=
  construct_hidden_map i hs

theorem construct_hidden_length (i o : Nat) (hs : List Nat) :
    (Network.construct i o hs).hidden_layers.length = hs.length := by
  have h := congrArg List.length (construct_hidden_sizes i o hs)
  simpa using h

theorem chainOK_construct (i : Nat) (hs : List Nat) :
    chainOK i ((layerPairs i hs).map (fun p => mkLinear p.1 p.2)) = true := by
  induction hs generalizing i with
  | nil => rfl
  | cons h t ih =>
    rw [layerPairs_cons, List.map_cons]
    simp only [chainOK, mkLinear, Bool.and_eq_true, beq_iff_eq]
    exact ⟨trivial, ih h⟩

theorem construct_conforms (i o : Nat) (hs : List Nat) :
    (Network.construct i o hs).conforms i o = true := by
  simp only [Network.conforms, Network.construct, Bool.and_eq_true, beq_iff_eq,
    List.all_eq_true]
  refine ⟨⟨⟨⟨chainOK_construct i hs, ?_⟩, ?_⟩, ?_⟩, mkLinear_hasShape _ _⟩
  · rw [construct_hidden_map]
    rfl
  · rfl
  · intro l hl
    simp only [List.mem_map] at hl
    obtain ⟨p, _, hp⟩ := hl
    rw [← hp]
    exact mkLinear_hasShape _ _

theorem construct_features (i o : Nat) (hs : List Nat) :
    (Network.construct i o hs).hidden_layers.map
        (fun l => (l.in_features, l.out_features))
      = layerPairs i hs := by
  show ((layerPairs i hs).map (fun p => mkLinear p.1 p.2)).map
      (fun l => (l.in_features, l.out_features)) = layerPairs i hs
  rw [List.map_map]
  exact List.map_id'' (fun p => rfl) (layerPairs i hs)

theorem filterMap_nil_of_none {α β : Type} (f : α → Option β) (l : List α)
    (h : ∀ a ∈ l, f a = none) : l.filterMap f = [] := by
  induction l with
  | nil => rfl
  | cons x t ih =>
    rw [List.filterMap_cons, h x (List.mem_cons_self x t)]
    exact ih (fun a ha => h a (List.mem_cons_of_mem x ha))

theorem lookup_removeKey_self (sd : StateDict) (k : ParamKey) :
    lookupTensor (removeKey sd k) k = none := by
  induction sd with
  | nil => rfl
  | cons e t ih =>
    obtain ⟨k1, t1⟩ := e
    by_cases hek : k1 = k
    · simpa [removeKey, List.filter_cons, hek] using ih
    · simpa [removeKey, List.filter_cons, hek, lookupTensor] using ih

theorem lookup_removeKey_ne (sd : StateDict) (k q : ParamKey) (h : q ≠ k) :
    lookupTensor (removeKey sd k) q = lookupTensor sd q := by
  induction sd with
  | nil => rfl
  | cons e t ih =>
    obtain ⟨k1, t1⟩ := e
    by_cases hek : k1 = k
    · subst hek
      have hne : ¬ (k1 = q) := fun hq => h hq.symm
      simpa [removeKey, List.filter_cons, lookupTensor, hne] using ih
    · by_cases hq : k1 = q
      · subst hq
        simp [removeKey, List.filter_cons, hek, lookupTensor]
      · simpa [removeKey, List.filter_cons, hek, lookupTensor, hq] using ih

theorem construct_hidden_eq_shell (hs : List Linear) :
    ∀ i, chainOK i hs = true →
      (layerPairs i (hs.map Linear.out_features)).map (fun p => mkLinear p.1 p.2)
        = hs.map shellLinear := by
  induction hs with
  | nil => intro i _; rfl
  | cons l t ih =>
    intro i hc
    simp only [chainOK, Bool.and_eq_true, beq_iff_eq] at hc
    obtain ⟨hin, hchain⟩ := hc
    subst hin
    rw [List.map_cons, List.map_cons, layerPairs_cons, List.map_cons,
      ih l.out_features hchain]
    rfl

theorem construct_eq_shell (i o : Nat) (n : Network) (h : n.conforms i o = true) :
    Network.construct i o (n.hidden_layers.map Linear.out_features) = n.shell := by
  simp only [Network.conforms, Bool.and_eq_true, beq_iff_eq] at h
  obtain ⟨⟨⟨⟨hchain, hin⟩, hout⟩, _⟩, _⟩ := h
  rw [Network.construct, Network.shell]
  congr 1
  · exact construct_hidden_eq_shell n.hidden_layers i hchain
  · rw [shellLinear, ← hin, ← hout]

theorem assignFrom_cons_skip (l : Linear) (wk bk : ParamKey)
    (e : ParamKey × Tensor) (sd : StateDict) (hw : e.1 ≠ wk) (hb : e.1 ≠ bk) :
    l.assignFrom wk bk (e :: sd) = l.assignFrom wk bk sd := by
  obtain ⟨k, t⟩ := e
  rw [Linear.assignFrom, Linear.assignFrom,
    lookupTensor_cons_ne _ _ _ _ hw, lookupTensor_cons_ne _ _ _ _ hb]

theorem assignHidden_skip (ls : List Linear) :
    ∀ (k : Nat) (e : ParamKey × Tensor) (sd : StateDict),
      (∀ i, k ≤ i →
        e.1 ≠ ParamKey.hiddenWeight i ∧ e.1 ≠ ParamKey.hiddenBias i) →
      assignHidden k ls (e :: sd) = assignHidden k ls sd := by
  induction ls with
  | nil => intro k e sd _; rfl
  | cons l t ih =>
    intro k e sd he
    rw [assignHidden, assignHidden,
      assignFrom_cons_skip _ _ _ _ _ (he k le_rfl).1 (he k le_rfl).2,
      ih (k + 1) e sd (fun i hi => he i (by omega))]

theorem assignHidden_round (hs : List Linear) :
    ∀ (k : Nat) (tail : StateDict),
      (∀ e ∈ tail, ∀ i,
        e.1 ≠ ParamKey.hiddenWeight i ∧ e.1 ≠ ParamKey.hiddenBias i) →
      assignHidden k (hs.map shellLinear) (hiddenEntries k hs ++ tail) = hs := by
  induction hs with
  | nil => intro k tail _; rfl
  | cons l t ih =>
    intro k tail ht
    rw [List.map_cons, hiddenEntries, List.cons_append, List.cons_append,
      assignHidden]
    congr 1
    · rw [shellLinear, Linear.assignFrom, lookupTensor_cons_self,
        lookupTensor_cons_ne _ _ _ _ (by simp), lookupTensor_cons_self]
      rfl
    · rw [assignHidden_skip _ _ _ _
          (fun i hi => ⟨by simp; omega, by simp⟩),
        assignHidden_skip _ _ _ _
          (fun i hi => ⟨by simp, by simp; omega⟩)]
      exact ih (k + 1) tail ht

theorem assignHidden_length (ls : List Linear) :
    ∀ (k : Nat) (sd : StateDict), (assignHidden k ls sd).length = ls.length := by
  induction ls with
  | nil => intro k sd; rfl
  | cons l t ih => intro k sd; simp [assignHidden, ih]

theorem assignHidden_features (ls : List Linear) :
    ∀ (k : Nat) (sd : StateDict),
      (assignHidden k ls sd).map (fun l => (l.in_features, l.out_features))
        = ls.map (fun l => (l.in_features, l.out_features)) := by
  induction ls with
  | nil => intro k sd; rfl
  | cons l t ih =>
    intro k sd
    rw [assignHidden, List.map_cons, List.map_cons, ih]
    rfl

theorem load_state_dict_of_missing (n : Network) (sd : StateDict)
    (k : ParamKey) (ks : List ParamKey)
    (h : missingOf n.state_dict sd = k :: ks) :
    n.load_state_dict sd = Except.error (LoadError.MissingField k) := by
  unfold Network.load_state_dict
  rw [h]

theorem load_state_dict_of_mismatch (n : Network) (sd : StateDict)
    (h0 : missingOf n.state_dict sd = []) (k : ParamKey) (ks : List ParamKey)
    (h : mismatchOf n.state_dict sd = k :: ks) :
    n.load_state_dict sd
      = Except.error (LoadError.ShapeMismatch (k :: ks)) := by
  unfold Network.load_state_dict
  rw [h0, h]

theorem load_state_dict_ok (n : Network) (sd : StateDict)
    (h0 : missingOf n.state_dict sd = [])
    (h1 : mismatchOf n.state_dict sd = []) :
    n.load_state_dict sd = Except.ok
      { hidden_layers := assignHidden 0 n.hidden_layers sd,
        output :=
          n.output.assignFrom ParamKey.outputWeight ParamKey.outputBias sd } := by
  unfold Network.load_state_dict
  rw [h0, h1]

theorem shell_hidden_length (n : Network) :
    n.shell.hidden_layers.length = n.hidden_layers.length := by
  simp [Network.shell]

theorem missing_shell (n : Network) :
    missingOf n.shell.state_dict n.state_dict = [] := by
  apply filterMap_nil_of_none
  intro p hp
  rw [Network.state_dict] at hp
  rcases List.mem_append.mp hp with hp | hp
  · obtain ⟨j, hj, hcase⟩ := mem_hiddenEntries _ 0 p hp
    have hj' : j < n.hidden_layers.length := by
      rw [← shell_hidden_length]
      exact hj
    rcases hcase with rfl | rfl
    · simp [Nat.zero_add, lookup_state_dict_hw n j hj']
    · simp [Nat.zero_add, lookup_state_dict_hb n j hj']
  · rcases List.mem_cons.mp hp with rfl | hp
    · simp [lookup_state_dict_ow]
    rcases List.mem_cons.mp hp with rfl | hp
    · simp [lookup_state_dict_ob]
    cases hp

theorem mismatch_shell (n : Network)
    (hh : ∀ l ∈ n.hidden_layers, l.hasShape = true)
    (ho : n.output.hasShape = true) :
    mismatchOf n.shell.state_dict n.state_dict = [] := by
  apply filterMap_nil_of_none
  intro p hp
  rw [Network.state_dict] at hp
  rcases List.mem_append.mp hp with hp | hp
  · obtain ⟨j, hj, hcase⟩ := mem_hiddenEntries _ 0 p hp
    have hj' : j < n.hidden_layers.length := by
      rw [← shell_hidden_length]
      exact hj
    have hget : n.shell.hidden_layers.get ⟨j, hj⟩
        = shellLinear (n.hidden_layers.get ⟨j, hj'⟩) := by
      simp [Network.shell]
    have hsh := shape_of_hasShape _ (hh _ (List.get_mem n.hidden_layers j hj'))
    rcases hcase with rfl | rfl
    · rw [Nat.zero_add]
      simp only [lookup_state_dict_hw n j hj']
      rw [hget, shellLinear]
      simp [(shape_mkLinear _ _).1]
      simpa using hsh.1
    · rw [Nat.zero_add]
      simp only [lookup_state_dict_hb n j hj']
      rw [hget, shellLinear]
      simp [(shape_mkLinear _ _).2]
      simpa using hsh.2
  · have hsho := shape_of_hasShape _ ho
    rcases List.mem_cons.mp hp with rfl | hp
    · simp only [lookup_state_dict_ow]
      show (if (Tensor.matrix n.output.weight).shape
          = (Tensor.matrix n.shell.output.weight).shape then none
        else some ParamKey.outputWeight) = none
      rw [Network.shell, shellLinear]
      simp [(shape_mkLinear _ _).1, hsho.1]
    rcases List.mem_cons.mp hp with rfl | hp
    · simp only [lookup_state_dict_ob]
      show (if (Tensor.vector n.output.bias).shape
          = (Tensor.vector n.shell.output.bias).shape then none
        else some ParamKey.outputBias) = none
      rw [Network.shell, shellLinear]
      simp [(shape_mkLinear _ _).2, hsho.2]
    cases hp

theorem load_shell (n : Network)
    (hh : ∀ l ∈ n.hidden_layers, l.hasShape = true)
    (ho : n.output.hasShape = true) :
    n.shell.load_state_dict n.state_dict = Except.ok n := by
  rw [load_state_dict_ok n.shell n.state_dict (missing_shell n)
    (mismatch_shell n hh ho)]
  have h1 : assignHidden 0 n.shell.hidden_layers n.state_dict
      = n.hidden_layers := by
    show assignHidden 0 (n.hidden_layers.map shellLinear) n.state_dict
      = n.hidden_layers
    rw [Network.state_dict]
    refine assignHidden_round n.hidden_layers 0 _ ?_
    intro e he i
    rcases List.mem_cons.mp he with rfl | he
    · exact ⟨by simp, by simp⟩
    rcases List.mem_cons.mp he with rfl | he
    · exact ⟨by simp, by simp⟩
    cases he
  have h2 : n.shell.output.assignFrom ParamKey.outputWeight ParamKey.outputBias
      n.state_dict = n.output := by
    show (shellLinear n.output).assignFrom ParamKey.outputWeight
      ParamKey.outputBias n.state_dict = n.output
    rw [shellLinear, Linear.assignFrom, lookup_state_dict_ow,
      lookup_state_dict_ob]
    rfl
  rw [h1, h2]

theorem load_checkpoint_checkpoint (i o : Nat) (M : Network)
    (h : M.conforms i o = true) :
    load_checkpoint (checkpoint i o M) = Except.ok M := by
  have hc := construct_eq_shell i o M h
  have hconf := h
  simp only [Network.conforms, Bool.and_eq_true, List.all_eq_true] at hconf
  obtain ⟨⟨⟨⟨_, _⟩, _⟩, hh⟩, ho⟩ := hconf
  show (Network.construct i o
      (M.hidden_layers.map Linear.out_features)).load_state_dict M.state_dict
    = Except.ok M
  rw [hc]
  exact load_shell M hh ho

theorem load_checkpoint_construct (i o : Nat) (hs : List Nat) :
    load_checkpoint (checkpoint i o (Network.construct i o hs))
      = Except.ok (Network.construct i o hs) :=
  load_checkpoint_checkpoint i o _ (construct_conforms i o hs)

theorem load_checkpoint_ok_features (cp : Checkpoint) (m : Network)
    (h : load_checkpoint cp = Except.ok m) :
    m.hidden_layers.map (fun l => (l.in_features, l.out_features))
        = layerPairs cp.input_size cp.hidden_layers
    ∧ m.output.in_features = cp.hidden_layers.getLastD cp.input_size
    ∧ m.output.out_features = cp.output_size := by
  unfold load_checkpoint Network.load_state_dict at h
  split at h
  · cases h
  · split at h
    · cases h
    · injection h with h
      subst h
      refine ⟨?_, rfl, rfl⟩
      rw [assignHidden_features, construct_features]

theorem load_checkpoint_ok_hidden_length (cp : Checkpoint) (m : Network)
    (h : load_checkpoint cp = Except.ok m) :
    m.hidden_layers.length = cp.hidden_layers.length := by
  unfold load_checkpoint Network.load_state_dict at h
  split at h
  · cases h
  · split at h
    · cases h
    · injection h with h
      subst h
      show (assignHidden 0
        (Network.construct cp.input_size cp.output_size
          cp.hidden_layers).hidden_layers cp.state_dict).length = _
      rw [assignHidden_length, construct_hidden_length]

theorem missingOf_append (e1 e2 sd : StateDict) :
    missingOf (e1 ++ e2) sd = missingOf e1 sd ++ missingOf e2 sd := by
  simp [missingOf]

theorem missing_drop_ow (M : Network) :
    missingOf M.shell.state_dict
        (removeKey M.state_dict ParamKey.outputWeight)
      = [ParamKey.outputWeight] := by
  rw [show M.shell.state_dict = hiddenEntries 0 M.shell.hidden_layers ++
      [(ParamKey.outputWeight, Tensor.matrix M.shell.output.weight),
       (ParamKey.outputBias, Tensor.vector M.shell.output.bias)] from rfl,
    missingOf_append]
  have hA : missingOf (hiddenEntries 0 M.shell.hidden_layers)
      (removeKey M.state_dict ParamKey.outputWeight) = [] := by
    apply filterMap_nil_of_none
    intro p hp
    obtain ⟨j, hj, hcase⟩ := mem_hiddenEntries _ 0 p hp
    have hj' : j < M.hidden_layers.length := by
      rw [← shell_hidden_length]
      exact hj
    rcases hcase with rfl | rfl
    · rw [Nat.zero_add]
      simp [lookup_removeKey_ne M.state_dict ParamKey.outputWeight
          (ParamKey.hiddenWeight j) (by simp),
        lookup_state_dict_hw M j hj']
    · rw [Nat.zero_add]
      simp [lookup_removeKey_ne M.state_dict ParamKey.outputWeight
          (ParamKey.hiddenBias j) (by simp),
        lookup_state_dict_hb M j hj']
  rw [hA]
  simp [missingOf, lookup_removeKey_self,
    lookup_removeKey_ne M.state_dict ParamKey.outputWeight
      ParamKey.outputBias (by simp),
    lookup_state_dict_ob]

/-! The claims. -/

/-- C1: Round-trip identity.  For every module `M` whose layer shapes match
the descriptor `D`, saving `M` with `D` and then loading the resulting
checkpoint yields back a module equal to `M`, so in particular every named
parameter array is numerically identical (the embedding carries exact
integer values, so equality is bit-for-bit identity) to `M`'s values at
the moment of save. -/
theorem round_trip_identity (D : ArchitectureDescriptor) (M : Network)
    (h : M.conforms D.input_size D.output_size = true)
    (_hD : M.hidden_layers.map Linear.out_features = D.hidden_sizes) :
    load_checkpoint (checkpoint D.input_size D.output_size M) = Except.ok M :=
  load_checkpoint_checkpoint D.input_size D.output_size M h

/-- Witness for C1 at a concrete module. -/
theorem round_trip_identity_witness :
    (Network.construct 3 2 [2]).conforms 3 2 = true
    ∧ (Network.construct 3 2 [2]).hidden_layers.map Linear.out_features = [2]
    ∧ load_checkpoint (checkpoint 3 2 (Network.construct 3 2 [2]))
        = Except.ok (Network.construct 3 2 [2]) :=
  ⟨construct_conforms 3 2 [2], construct_hidden_sizes 3 2 [2],
   round_trip_identity
     { input_size := 3, output_size := 2, hidden_sizes := [2] }
     (Network.construct 3 2 [2]) (construct_conforms 3 2 [2])
     (construct_hidden_sizes 3 2 [2])⟩

/-- C2: Shape-mismatch rejection without mutation.  Assigning the state
dict of a checkpoint saved from a module with hidden sizes
`[512, 256, 128]` (input 784, output 10) into a module independently
constructed with hidden sizes `[400, 200, 100]` fails with `ShapeMismatch`
listing every mismatched parameter (all three hidden layers' weights and
biases and the output weight; the output bias `[10]` agrees), and returns
no module at all, so no parameter of the target is mutated. -/
theorem shape_mismatch_rejection (M : Network)
    (h : M.conforms 784 10 = true)
    (hhs : M.hidden_layers.map Linear.out_features = [512, 256, 128]) :
    (Network.construct 784 10 [400, 200, 100]).load_state_dict
        (checkpoint 784 10 M).state_dict
      = Except.error (LoadError.ShapeMismatch
          [ParamKey.hiddenWeight 0, ParamKey.hiddenBias 0,
           ParamKey.hiddenWeight 1, ParamKey.hiddenBias 1,
           ParamKey.hiddenWeight 2, ParamKey.hiddenBias 2,
           ParamKey.outputWeight])
    ∧ ∀ m, (Network.construct 784 10 [400, 200, 100]).load_state_dict
        (checkpoint 784 10 M).state_dict ≠ Except.ok m := by
  obtain ⟨hid, out⟩ := M
  cases hid with
  | nil => simp at hhs
  | cons l0 hid =>
  cases hid with
  | nil => simp at hhs
  | cons l1 hid =>
  cases hid with
  | nil => simp at hhs
  | cons l2 hid =>
  cases hid with
  | cons l3 hid => simp at hhs
  | nil =>
  simp only [List.map_cons, List.map_nil, List.cons.injEq, and_true] at hhs
  obtain ⟨h0, h1, h2⟩ := hhs
  simp only [Network.conforms, chainOK, Bool.and_eq_true, beq_iff_eq,
    List.all_eq_true, List.forall_mem_cons, List.forall_mem_nil] at h
  obtain ⟨⟨⟨⟨⟨hin0, hin1, hin2, -⟩, hoin⟩, hoout⟩, s0, s1, s2, -⟩, hosh⟩ := h
  obtain ⟨sw0, sb0⟩ := shape_of_hasShape l0 s0
  obtain ⟨sw1, sb1⟩ := shape_of_hasShape l1 s1
  obtain ⟨sw2, sb2⟩ := shape_of_hasShape l2 s2
  obtain ⟨swo, sbo⟩ := shape_of_hasShape out hosh
  rw [h0, hin0] at sw0
  rw [h0] at sb0
  rw [h1, hin1, h0] at sw1
  rw [h1] at sb1
  rw [h2, hin2, h1] at sw2
  rw [h2] at sb2
  have hoin2 : out.in_features = l2.out_features := hoin.trans rfl
  rw [hoout, hoin2, h2] at swo
  rw [hoout] at sbo
  norm_num at sw0 sw1 sw2 swo
  have hmiss : missingOf
      (Network.construct 784 10 [400, 200, 100]).state_dict
      (Network.state_dict { hidden_layers := [l0, l1, l2], output := out })
      = [] := by
    simp [missingOf, Network.construct, layerPairs_cons, layerPairs_nil,
      Network.state_dict, hiddenEntries, lookupTensor]
  have hmm : mismatchOf
      (Network.construct 784 10 [400, 200, 100]).state_dict
      (Network.state_dict { hidden_layers := [l0, l1, l2], output := out })
      = [ParamKey.hiddenWeight 0, ParamKey.hiddenBias 0,
         ParamKey.hiddenWeight 1, ParamKey.hiddenBias 1,
         ParamKey.hiddenWeight 2, ParamKey.hiddenBias 2,
         ParamKey.outputWeight] := by
    simp [mismatchOf, Network.construct, layerPairs_cons, layerPairs_nil,
      Network.state_dict, hiddenEntries, lookupTensor,
      sw0, sb0, sw1, sb1, sw2, sb2, swo, sbo,
      (shape_mkLinear 784 400).1, (shape_mkLinear 784 400).2,
      (shape_mkLinear 400 200).1, (shape_mkLinear 400 200).2,
      (shape_mkLinear 200 100).1, (shape_mkLinear 200 100).2,
      (shape_mkLinear 100 10).1, (shape_mkLinear 100 10).2,
      show ([400, 200, 100] : List Nat).getLastD 784 = 100 from rfl]
  have hout : (Network.construct 784 10 [400, 200, 100]).load_state_dict
      (checkpoint 784 10
        { hidden_layers := [l0, l1, l2], output := out }).state_dict
      = Except.error (LoadError.ShapeMismatch
          [ParamKey.hiddenWeight 0, ParamKey.hiddenBias 0,
           ParamKey.hiddenWeight 1, ParamKey.hiddenBias 1,
           ParamKey.hiddenWeight 2, ParamKey.hiddenBias 2,
           ParamKey.outputWeight]) :=
    load_state_dict_of_mismatch _ _ hmiss _ _ hmm
  exact ⟨hout, fun m hm => by rw [hout] at hm; cases hm⟩

/-- Witness for C2 at a concrete module with hidden sizes
`[512, 256, 128]`. -/
theorem shape_mismatch_rejection_witness :
    (Network.construct 784 10 [512, 256, 128]).conforms 784 10 = true
    ∧ (Network.construct 784 10 [512, 256, 128]).hidden_layers.map
        Linear.out_features = [512, 256, 128]
    ∧ (Network.construct 784 10 [400, 200, 100]).load_state_dict
        (checkpoint 784 10 (Network.construct 784 10 [512, 256, 128])).state_dict
      = Except.error (LoadError.ShapeMismatch
          [ParamKey.hiddenWeight 0, ParamKey.hiddenBias 0,
           ParamKey.hiddenWeight 1, ParamKey.hiddenBias 1,
           ParamKey.hiddenWeight 2, ParamKey.hiddenBias 2,
           ParamKey.outputWeight]) :=
  ⟨construct_conforms 784 10 [512, 256, 128],
   construct_hidden_sizes 784 10 [512, 256, 128],
   (shape_mismatch_rejection (Network.construct 784 10 [512, 256, 128])
     (construct_conforms 784 10 [512, 256, 128])
     (construct_hidden_sizes 784 10 [512, 256, 128])).1⟩

/-- C3: Descriptor-driven reconstruction.  When a checkpoint records
`input_size = 784`, `output_size = 10`, `hidden_layers = [512, 256, 128]`,
any module the load produces has layer shapes exactly
`784→512, 512→256, 256→128, 128→10`; `load_checkpoint` consumes only the
checkpoint, so the shapes derive solely from the stored descriptor. -/
theorem descriptor_driven_reconstruction (cp : Checkpoint) (m : Network)
    (h1 : cp.input_size = 784) (h2 : cp.output_size = 10)
    (h3 : cp.hidden_layers = [512, 256, 128])
    (h : load_checkpoint cp = Except.ok m) :
    m.hidden_layers.map (fun l => (l.in_features, l.out_features))
        = [(784, 512), (512, 256), (256, 128)]
    ∧ m.output.in_features = 128 ∧ m.output.out_features = 10 := by
  obtain ⟨hf, hoi, hoo⟩ := load_checkpoint_ok_features cp m h
  rw [h1, h3] at hf
  rw [h3, h1] at hoi
  rw [h2] at hoo
  exact ⟨hf.trans rfl, hoi.trans rfl, hoo⟩

/-- Witness for C3 at a concrete checkpoint. -/
theorem descriptor_driven_reconstruction_witness :
    (checkpoint 784 10 (Network.construct 784 10 [512, 256, 128])).input_size
        = 784
    ∧ (checkpoint 784 10 (Network.construct 784 10 [512, 256, 128])).output_size
        = 10
    ∧ (checkpoint 784 10
        (Network.construct 784 10 [512, 256, 128])).hidden_layers
        = [512, 256, 128]
    ∧ load_checkpoint (checkpoint 784 10 (Network.construct 784 10 [512, 256, 128]))
        = Except.ok (Network.construct 784 10 [512, 256, 128])
    ∧ ((Network.construct 784 10 [512, 256, 128]).hidden_layers.map
          (fun l => (l.in_features, l.out_features))
        = [(784, 512), (512, 256), (256, 128)]
      ∧ (Network.construct 784 10 [512, 256, 128]).output.in_features = 128
      ∧ (Network.construct 784 10 [512, 256, 128]).output.out_features = 10) :=
  ⟨rfl, rfl, construct_hidden_sizes 784 10 [512, 256, 128],
   load_checkpoint_construct 784 10 [512, 256, 128],
   descriptor_driven_reconstruction _ _ rfl rfl
     (construct_hidden_sizes 784 10 [512, 256, 128])
     (load_checkpoint_construct 784 10 [512, 256, 128])⟩

/-- C4: Missing-field detection.  Loading a checkpoint from which the
`output.weight` parameter entry has been removed fails with
`MissingField`, and no module object is returned to the caller. -/
theorem missing_field_detection (i o : Nat) (M : Network)
    (h : M.conforms i o = true) :
    load_checkpoint ((checkpoint i o M).dropParam ParamKey.outputWeight)
      = Except.error (LoadError.MissingField ParamKey.outputWeight)
    ∧ ∀ m, load_checkpoint ((checkpoint i o M).dropParam ParamKey.outputWeight)
        ≠ Except.ok m := by
  have hc := construct_eq_shell i o M h
  have h1 : load_checkpoint ((checkpoint i o M).dropParam ParamKey.outputWeight)
      = Except.error (LoadError.MissingField ParamKey.outputWeight) := by
    show (Network.construct i o
        (M.hidden_layers.map Linear.out_features)).load_state_dict
        (removeKey M.state_dict ParamKey.outputWeight) = _
    rw [hc]
    exact load_state_dict_of_missing _ _ _ _ (missing_drop_ow M)
  exact ⟨h1, fun m hm => by rw [h1] at hm; cases hm⟩

/-- Witness for C4 at a concrete checkpoint. -/
theorem missing_field_detection_witness :
    (Network.construct 3 2 [2]).conforms 3 2 = true
    ∧ load_checkpoint ((checkpoint 3 2 (Network.construct 3 2 [2])).dropParam
        ParamKey.outputWeight)
      = Except.error (LoadError.MissingField ParamKey.outputWeight) :=
  ⟨construct_conforms 3 2 [2],
   (missing_field_detection 3 2 (Network.construct 3 2 [2])
     (construct_conforms 3 2 [2])).1⟩

/-- C5: Isolation from later mutation.  In the trace "save, then mutate":
the checkpoint produced by the save holds a snapshot equal to `M`'s
parameters at save time, and reloading that checkpoint reproduces `M`'s
pre-mutation values, for every subsequent in-place parameter update
`(k, t)`; the checkpoint value is a copy, so the mutation cannot reach
it. -/
theorem save_isolation (i o : Nat) (M : Network) (k : ParamKey) (t : Tensor)
    (h : M.conforms i o = true) :
    (saveThenMutate i o M k t).1.state_dict = M.state_dict
    ∧ load_checkpoint (saveThenMutate i o M k t).1 = Except.ok M :=
  ⟨rfl, load_checkpoint_checkpoint i o M h⟩

/-- Witness for C5: save, then overwrite the output bias. -/
theorem save_isolation_witness :
    (Network.construct 3 2 [2]).conforms 3 2 = true
    ∧ (saveThenMutate 3 2 (Network.construct 3 2 [2]) ParamKey.outputBias
        (Tensor.vector [7, 7])).1.state_dict
      = (Network.construct 3 2 [2]).state_dict
    ∧ load_checkpoint (saveThenMutate 3 2 (Network.construct 3 2 [2])
        ParamKey.outputBias (Tensor.vector [7, 7])).1
      = Except.ok (Network.construct 3 2 [2]) :=
  ⟨construct_conforms 3 2 [2],
   (save_isolation 3 2 (Network.construct 3 2 [2]) ParamKey.outputBias
     (Tensor.vector [7, 7]) (construct_conforms 3 2 [2])).1,
   (save_isolation 3 2 (Network.construct 3 2 [2]) ParamKey.outputBias
     (Tensor.vector [7, 7]) (construct_conforms 3 2 [2])).2⟩

/-- C6 (counterexample): the source's `load_checkpoint` ends in
`return model`, so the caller receives the bare module, never a
`(module, architecture)` pair: at a concrete checkpoint the returned value
is `LoadValue.module …` and is not `LoadValue.pair …` for any module and
descriptor. -/
theorem load_pair_counterexample :
    load_checkpoint_value (checkpoint 3 2 (Network.construct 3 2 [2]))
      = Except.ok (LoadValue.module (Network.construct 3 2 [2]))
    ∧ ¬ ∃ m d, load_checkpoint_value (checkpoint 3 2 (Network.construct 3 2 [2]))
        = Except.ok (LoadValue.pair m d) := by
  have h1 : load_checkpoint_value (checkpoint 3 2 (Network.construct 3 2 [2]))
      = Except.ok (LoadValue.module (Network.construct 3 2 [2])) := by
    show (load_checkpoint (checkpoint 3 2 (Network.construct 3 2 [2]))).map
      LoadValue.module = _
    rw [load_checkpoint_construct]
    rfl
  refine ⟨h1, ?_⟩
  rintro ⟨m, d, hmd⟩
  rw [h1] at hmd
  simp at hmd

/-- C6 (amended): for every valid checkpoint, load returns the fully
initialized reconstructed module; the architecture descriptor is stored in
the checkpoint and drives the reconstruction, but is not part of the
returned value. -/
theorem load_returns_module (i o : Nat) (M : Network)
    (h : M.conforms i o = true) :
    load_checkpoint_value (checkpoint i o M)
      = Except.ok (LoadValue.module M) := by
  show (load_checkpoint (checkpoint i o M)).map LoadValue.module = _
  rw [load_checkpoint_checkpoint i o M h]
  rfl

/-- Witness for the amended C6. -/
theorem load_returns_module_witness :
    (Network.construct 3 2 [2]).conforms 3 2 = true
    ∧ load_checkpoint_value (checkpoint 3 2 (Network.construct 3 2 [2]))
      = Except.ok (LoadValue.module (Network.construct 3 2 [2])) :=
  ⟨construct_conforms 3 2 [2],
   load_returns_module 3 2 (Network.construct 3 2 [2])
     (construct_conforms 3 2 [2])⟩

/-- C7 (counterexample): the saved container's descriptor list field is
named `hidden_layers`, not `hidden_layer_sizes`; the parameter
sub-container is named `state_dict`, not `parameters`; and the hidden
parameter keys begin with the role tag `hidden_layers`, not `hidden`. -/
theorem checkpoint_field_names_counterexample :
    "hidden_layer_sizes"
        ∉ (Checkpoint.serialize (checkpoint 3 2 (Network.construct 3 2 [2]))).map
          Prod.fst
    ∧ "parameters"
        ∉ (Checkpoint.serialize (checkpoint 3 2 (Network.construct 3 2 [2]))).map
          Prod.fst
    ∧ "hidden.0.weight"
        ∉ serializedParamNames (checkpoint 3 2 (Network.construct 3 2 [2]))
    ∧ "hidden_layers.0.weight"
        ∈ serializedParamNames (checkpoint 3 2 (Network.construct 3 2 [2])) := by
  refine ⟨?_, ?_, ?_, ?_⟩ <;> decide

/-- C7 (amended): every checkpoint written by save is a structured
container with exactly three descriptor fields `input_size`,
`output_size`, `hidden_layers` plus the parameter sub-container
`state_dict`, whose entries are keyed `<role>.<index?>.weight` /
`<role>.<index?>.bias` with role `hidden_layers` or `output`, the index
present only for hidden layers, zero-based, in application order. -/
theorem checkpoint_serialized_format (i o : Nat) (M : Network) :
    (Checkpoint.serialize (checkpoint i o M)).map Prod.fst
      = ["input_size", "output_size", "hidden_layers", "state_dict"]
    ∧ serializedParamNames (checkpoint i o M)
      = paramNames M.hidden_layers.length := by
  refine ⟨rfl, ?_⟩
  show M.state_dict.map (fun p => p.1.name) = _
  exact names_state_dict M

/-- C8: Checkpoint self-consistency.  The layer identifiers stored by
save are exactly those implied by the checkpoint's own descriptor (one
weight/bias pair per hidden size, plus the output pair), and a checkpoint
whose store is missing an implied identifier makes the load abort with
`MissingField` rather than partially populate a module. -/
theorem checkpoint_self_consistency (i o : Nat) (M : Network) :
    (checkpoint i o M).state_dict.map Prod.fst
      = expectedKeys (checkpoint i o M).hidden_layers.length
    ∧ ∀ (cp : Checkpoint) (k : ParamKey) (ks : List ParamKey),
        missingOf (Network.construct cp.input_size cp.output_size
            cp.hidden_layers).state_dict cp.state_dict = k :: ks →
        load_checkpoint cp = Except.error (LoadError.MissingField k) := by
  constructor
  · show M.state_dict.map Prod.fst
      = expectedKeys (M.hidden_layers.map Linear.out_features).length
    rw [keys_state_dict, List.length_map]
  · intro cp k ks hk
    exact load_state_dict_of_missing _ _ _ _ hk

/-- Witness for C8: a concrete save, and a concrete corrupted checkpoint
rejected as missing. -/
theorem checkpoint_self_consistency_witness :
    (checkpoint 3 2 (Network.construct 3 2 [2])).state_dict.map Prod.fst
      = expectedKeys (checkpoint 3 2 (Network.construct 3 2 [2])).hidden_layers.length
    ∧ load_checkpoint ((checkpoint 3 2 (Network.construct 3 2 [2])).dropParam
        ParamKey.outputWeight)
      = Except.error (LoadError.MissingField ParamKey.outputWeight) :=
  ⟨(checkpoint_self_consistency 3 2 (Network.construct 3 2 [2])).1,
   (checkpoint_self_consistency 3 2 (Network.construct 3 2 [2])).2
     ((checkpoint 3 2 (Network.construct 3 2 [2])).dropParam
       ParamKey.outputWeight)
     ParamKey.outputWeight [] (by decide)⟩

/-- C9: Implicit descriptor round-trip through introspection.  For a
module constructed from `(i, o, hs)`, the hidden-size list recorded in its
checkpoint, read back from each hidden layer's `out_features` in order,
equals `hs`. -/
theorem introspected_hidden_sizes (i o : Nat) (hs : List Nat) :
    (checkpoint i o (Network.construct i o hs)).hidden_layers = hs :=
  construct_hidden_sizes i o hs

/-- C10: Parameter-name invariant.  A module constructed with `n` hidden
layers exposes exactly the names `hidden_layers.i.weight`,
`hidden_layers.i.bias` for `i < n` in application order followed by
`output.weight`, `output.bias`, and a successful save/load leaves this key
sequence unchanged. -/
theorem parameter_name_invariant (i o : Nat) (hs : List Nat) :
    (Network.construct i o hs).state_dict.map (fun p => p.1.name)
        = paramNames hs.length
    ∧ ∀ (M m : Network), load_checkpoint (checkpoint i o M) = Except.ok m →
        m.state_dict.map (fun p => p.1.name)
          = M.state_dict.map (fun p => p.1.name) := by
  constructor
  · rw [names_state_dict, construct_hidden_length]
  · intro M m hm
    have hlen := load_checkpoint_ok_hidden_length _ _ hm
    rw [show (checkpoint i o M).hidden_layers.length = M.hidden_layers.length
      from by simp [checkpoint]] at hlen
    rw [names_state_dict, names_state_dict, hlen]

/-- Witness for C10. -/
theorem parameter_name_invariant_witness :
    (Network.construct 3 2 [2]).state_dict.map (fun p => p.1.name)
        = paramNames 1
    ∧ load_checkpoint (checkpoint 3 2 (Network.construct 3 2 [2]))
        = Except.ok (Network.construct 3 2 [2])
    ∧ (Network.construct 3 2 [2]).state_dict.map (fun p => p.1.name)
        = (Network.construct 3 2 [2]).state_dict.map (fun p => p.1.name) :=
  ⟨(parameter_name_invariant 3 2 [2]).1,
   load_checkpoint_construct 3 2 [2],
   (parameter_name_invariant 3 2 [2]).2 (Network.construct 3 2 [2])
     (Network.construct 3 2 [2]) (load_checkpoint_construct 3 2 [2])⟩

end FcModel
